import Mathlib

/-!
Verification of the Multi-Agent-Assistant core against its specification.

Two components are embedded shallowly:

* `MCP` — the remote command client (`src/mcp/client.py`): catalog caching,
  retry policy on the catalog fetch, command execution, and the synthesis of
  validating tool wrappers (`get_tools`) from each command's JSON-schema-like
  parameter description.  The Pydantic model built by `create_model` is
  represented by the list of synthesized field descriptors, and Pydantic
  validation of keyword arguments is modelled field by field: a value must be
  present (or a declared default exists) and must match the declared type.
  Two library behaviours the source relies on are reflected faithfully:
  a `Field(default=...)` whose default is the Ellipsis sentinel marks the
  field as *required*, and an `enum=[...]` keyword passed to `Field` is
  stored as JSON-schema metadata only — Pydantic does not enforce it during
  validation.
* `Workflow` — the supervisor-driven execution graph
  (`src/workflow/graph.py`): routing-token matching, the agent node wrapper
  with its exception handling, the bounded-iteration router, and `run`.

Network traffic is made explicit: every issued HTTP request is appended to a
trace, so "no network call is made" is the statement that the trace is
unchanged.
-/

namespace MCP

/-- JSON values, as far as the client's schemas and payloads need them.
Numbers are modelled as integers (no claim involves fractional values). -/
inductive JValue where
  | str (s : String)
  | num (n : Int)
  | bool (b : Bool)
  | arr (xs : List JValue)
  | obj (fields : List (String × JValue))
  | null


/-- One entry of a command's `parameters.properties` object:
`{type, description?, enum?, default?}` (see §6 of the spec and
`MCPClient.get_tools`).  `default := none` means the `default` key is
absent from the JSON object. -/
structure FieldInfo where
  type : String := "string"
  description : Option String := none
  enum : Option (List JValue) := none
  default : Option JValue := none


/-- The `Command` record parsed from the catalog response
(`class Command(BaseModel)` in `src/mcp/client.py`).  The `parameters`
dict is represented by its `properties` entries (in object order) and its
`required` list. -/
structure Command where
  name : String
  description : String
  properties : List (String × FieldInfo) := []
  required : List String := []


/-- `Command.has_parameters`: `bool(self.parameters.get("properties"))` —
true exactly when the properties object is non-empty. -/
def Command.has_parameters (c : Command) : Bool :=
  !c.properties.isEmpty

/-- Python types that `json_type_to_py_type` can produce for a plain
string type tag (the `mapping` dict in `MCPClient.get_tools`). -/
inductive PyType where
  | str
  | float
  | int
  | bool
  | list
  | dict
  | noneType
  | any


/-- `json_type_to_py_type` restricted to a plain string tag: the `mapping`
dict lookup with fallback `Any`. -/
def json_type_to_py_type (json_type : String) : PyType :=
  if json_type = "string" then .str
  else if json_type = "number" then .float
  else if json_type = "integer" then .int
  else if json_type = "boolean" then .bool
  else if json_type = "array" then .list
  else if json_type = "object" then .dict
  else if json_type = "null" then .noneType
  else .any

/-- One synthesized Pydantic field of a `{cmd.name}Params` model.
`default := none` models the Ellipsis sentinel (Pydantic: required);
`enumMeta` is the `enum` list passed as an extra `Field` keyword, which
Pydantic keeps as JSON-schema metadata without enforcing it. -/
structure SynthField where
  name : String
  py_type : PyType
  enumMeta : Option (List JValue) := none
  default : Option JValue := none


/-- The field descriptors of the Pydantic model `get_tools` builds for one
command: every property becomes a field; a field listed in `required` gets
no default, an unlisted field gets `field_info.get("default", ...)` — the
declared default if present, otherwise the Ellipsis sentinel. -/
def makeSchema (cmd : Command) : List SynthField :=
  if cmd.has_parameters = false then []
  else
    cmd.properties.map fun fi =>
      { name := fi.1
        py_type := json_type_to_py_type fi.2.type
        enumMeta := fi.2.enum
        default := if cmd.required.contains fi.1 then none else fi.2.default }

/-- Decimal-integer strings accepted by Pydantic's lax string-to-integer
coercion, in their plain spelling: optional surrounding ASCII whitespace,
an optional sign, then one or more decimal digits (e.g. "5", " +17").
More exotic accepted spellings (underscore separators, unicode digits,
integral float strings) are not distinguished here; no theorem below
depends on the fate of a string supplied to a numeric field. -/
def isIntString (s : String) : Bool :=
  let t := ((s.data.dropWhile Char.isWhitespace).reverse.dropWhile Char.isWhitespace).reverse
  let t2 := match t with
    | c :: rest => if c = '+' ∨ c = '-' then rest else t
    | [] => []
  !t2.isEmpty && t2.all Char.isDigit

/-- Decimal numeric strings accepted by Pydantic's lax string-to-float
coercion, in their plain spelling: optional surrounding whitespace, an
optional sign, digits with at most one decimal point (e.g. "2", "2.5").
Exponent and special spellings ("1e3", "inf") are not distinguished
here; no theorem below depends on them. -/
def isFloatString (s : String) : Bool :=
  let t := ((s.data.dropWhile Char.isWhitespace).reverse.dropWhile Char.isWhitespace).reverse
  let t2 := match t with
    | c :: rest => if c = '+' ∨ c = '-' then rest else t
    | [] => []
  !t2.isEmpty && t2.all (fun c => c.isDigit || c = '.') &&
    (t2.filter fun c => c = '.').length ≤ 1 && t2.any Char.isDigit

/-- The truthy/falsy strings Pydantic's lax string-to-bool coercion
accepts, case-insensitively. -/
def isBoolString (s : String) : Bool :=
  let l : String := ⟨s.data.map Char.toLower⟩
  ["true", "t", "yes", "y", "on", "1",
   "false", "f", "no", "n", "off", "0"].contains l

/-- Pydantic v2's default (lax, "smart") acceptance of a value for a
declared field type, over this model's JSON value universe: a declared
`str` accepts only strings (v2 does not stringify numbers or booleans);
`int` and `float` accept numbers and plain numeric strings, but never
booleans, lists, objects or null; `bool` accepts booleans, the integers
0 and 1, and the documented truthy/falsy strings; `List`, `Dict` and
`None` accept only their own shapes; `Any` accepts everything.
The `enum` metadata plays no role here. -/
def typeCheck : PyType → JValue → Bool
  | .str, .str _ => true
  | .float, .num _ => true
  | .float, .str s => isFloatString s
  | .int, .num _ => true
  | .int, .str s => isIntString s
  | .bool, .bool _ => true
  | .bool, .num n => n == 0 || n == 1
  | .bool, .str s => isBoolString s
  | .list, .arr _ => true
  | .dict, .obj _ => true
  | .noneType, .null => true
  | .any, _ => true
  | _, _ => false

/-- Keyword-argument lookup (Python dict access by key). -/
def lookupArg (args : List (String × JValue)) (name : String) : Option JValue :=
  (args.find? fun kv => kv.1 = name).map Prod.snd

/-- Pydantic validation of one synthesized field against the supplied
keyword arguments: a present value must type-check; an absent value is
replaced by the declared default, and is an error when the default is the
Ellipsis sentinel (`default = none`). -/
def validateField (f : SynthField) (args : List (String × JValue)) :
    Except String (String × JValue) :=
  match lookupArg args f.name with
  | some v => if typeCheck f.py_type v then .ok (f.name, v)
              else .error ("wrong type for field " ++ f.name)
  | none =>
      match f.default with
      | some d => .ok (f.name, d)
      | none => .error ("missing required field " ++ f.name)

/-- Pydantic validation of a whole argument set against a synthesized
model: every field validates (extra keys are ignored, Pydantic's default),
and the model instance binds each field to the validated value or its
default. -/
def validateArgs : List SynthField → List (String × JValue) →
    Except String (List (String × JValue))
  | [], _ => .ok []
  | f :: fs, args =>
      match validateField f args with
      | .error m => .error m
      | .ok kv =>
          match validateArgs fs args with
          | .error m => .error m
          | .ok rest => .ok (kv :: rest)

/-- Client-level errors (`MCPError`, `CommandNotFoundError`) together with
the two httpx transport exceptions that escape `_load_commands` untouched
(`httpx.ConnectError`, `httpx.ReadTimeout` — its `except` clauses catch
only `HTTPStatusError`, `ValidationError` and `ValueError`). -/
inductive MCPErr where
  | mcpError (msg : String)
  | commandNotFound (msg : String)
  | connectError
  | readTimeout

/-- The observable fate of one GET on `/commands`. -/
inductive FetchOutcome where
  | ok (cmds : List Command)
  | connectError
  | readTimeout
  | httpStatus (code : Nat)
  | invalidShape

/-- The observable fate of one POST on `/execute`: a success body carries
the `result` field, a failure carries the HTTP status raised by
`raise_for_status`. -/
inductive ExecOutcome where
  | success (result : JValue)
  | status (code : Nat)

/-- One HTTP request issued by the client. -/
inductive Request where
  | getCommands
  | postExecute (command : String) (parameters : List (String × JValue))

/-- A single un-retried `_load_commands` body: the GET, `raise_for_status`,
the shape check and `Command.model_validate`, with the `except` clauses
re-wrapping status and schema failures as `MCPError`. -/
def loadOnce : FetchOutcome → Except MCPErr (List Command)
  | .ok cmds => .ok cmds
  | .connectError => .error .connectError
  | .readTimeout => .error .readTimeout
  | .httpStatus code =>
      .error (.mcpError ("Failed to fetch commands: " ++ toString code))
  | .invalidShape =>
      .error (.mcpError "Invalid command schema received from server")

/-- `retry_if_exception_type((httpx.ConnectError, httpx.ReadTimeout))`. -/
def retryable : MCPErr → Bool
  | .connectError => true
  | .readTimeout => true
  | _ => false

/-- tenacity's `wait_exponential(multiplier, min, max)` after the
just-completed attempt number `attempt` (numbered from 1):
`multiplier * exp_base ^ (attempt_number - 1)` clamped into the band as
`max(max(0, min), min(result, max))`.  With `(1, 2, 10)` the raw
exponentials after the first two failed attempts are 1 and 2, so both
waits clamp up to the minimum of 2. -/
def wait_exponential (multiplier mn mx attempt : Nat) : Nat :=
  Nat.max mn (Nat.min (multiplier * 2 ^ (attempt - 1)) mx)

/-- `stop_after_attempt(3)`. -/
def stop_after_attempt : Nat := 3

/-- The tenacity retry loop around `_load_commands`, from attempt number
`attempt` with `fuel` retries still allowed.  Returns the final outcome
(`reraise=True`: the last attempt's error unchanged), the number of GET
requests issued, and the list of backoff waits taken. -/
def load_commands_aux (outcomes : Nat → FetchOutcome) :
    Nat → Nat → Except MCPErr (List Command) × Nat × List Nat
  | attempt, 0 => (loadOnce (outcomes attempt), 1, [])
  | attempt, fuel + 1 =>
      match loadOnce (outcomes attempt) with
      | .ok cmds => (.ok cmds, 1, [])
      | .error e =>
          if retryable e then
            let rest := load_commands_aux outcomes (attempt + 1) fuel
            (rest.1, rest.2.1 + 1, wait_exponential 1 2 10 attempt :: rest.2.2)
          else (.error e, 1, [])

/-- `_load_commands` under its `@retry` decorator: up to
`stop_after_attempt = 3` attempts, numbered from 1, where `outcomes k` is
the fate of the k-th GET. -/
def load_commands (outcomes : Nat → FetchOutcome) :
    Except MCPErr (List Command) × Nat × List Nat :=
  load_commands_aux outcomes 1 (stop_after_attempt - 1)

/-- The client's cache slots: `self._commands` and `self._command_map`. -/
structure ClientState where
  _commands : Option (List Command) := none
  _command_map : Option (List (String × Command)) := none

/-- A client together with the trace of HTTP requests it has issued.
A fresh `MCPClient` has both caches empty and an empty trace. -/
structure ClientRun where
  client : ClientState := {}
  trace : List Request := []

/-- Number of catalog GET requests in the trace. -/
def ClientRun.gets (cr : ClientRun) : Nat :=
  cr.trace.countP fun r => match r with
    | .getCommands => true
    | _ => false

/-- Number of execute POST requests in the trace. -/
def ClientRun.posts (cr : ClientRun) : Nat :=
  cr.trace.countP fun r => match r with
    | .postExecute _ _ => true
    | _ => false

/-- The `commands` property: return the cache when populated, otherwise run
`_load_commands` (with its retry loop); a successful load fills
`_commands` and resets `_command_map` to `None`.  `env n` is the fate of
the n-th GET of this client's lifetime (1-indexed). -/
def commandsProperty (env : Nat → FetchOutcome) (cr : ClientRun) :
    Except MCPErr (List Command) × ClientRun :=
  match cr.client._commands with
  | some cmds => (.ok cmds, cr)
  | none =>
      let loaded := load_commands fun k => env (cr.gets + k)
      let trace := cr.trace ++ List.replicate loaded.2.1 .getCommands
      match loaded.1 with
      | .ok cmds =>
          (.ok cmds,
           { client := { _commands := some cmds, _command_map := none },
             trace := trace })
      | .error e => (.error e, { cr with trace := trace })

/-- The `command_map` property: build the name → command dict from the
`commands` property on first use and cache it. -/
def command_mapProperty (env : Nat → FetchOutcome) (cr : ClientRun) :
    Except MCPErr (List (String × Command)) × ClientRun :=
  match cr.client._command_map with
  | some m => (.ok m, cr)
  | none =>
      match commandsProperty env cr with
      | (.ok cmds, cr1) =>
          let m := cmds.map fun c => (c.name, c)
          (.ok m, { cr1 with client := { cr1.client with _command_map := some m } })
      | (.error e, cr1) => (.error e, cr1)

/-- `MCPClient.execute_command`: unknown names fail with
`CommandNotFoundError` before any POST; otherwise one POST is issued with
payload `{"command": name, "parameters": parameters or {}}` and the
response is classified (404 → `CommandNotFoundError`, other failure status
→ `MCPError`, success → the body's `result` field).  `resp` is the fate of
the POST. -/
def execute_command (env : Nat → FetchOutcome) (resp : ExecOutcome)
    (cr : ClientRun) (command_name : String)
    (parameters : Option (List (String × JValue))) :
    Except MCPErr JValue × ClientRun :=
  match command_mapProperty env cr with
  | (.error e, cr1) => (.error e, cr1)
  | (.ok m, cr1) =>
      if (m.map Prod.fst).contains command_name = false then
        (.error (.commandNotFound ("Command not found: " ++ command_name)), cr1)
      else
        let payload := parameters.getD []
        let cr2 := { cr1 with
          trace := cr1.trace ++ [.postExecute command_name payload] }
        let res : Except MCPErr JValue :=
          match resp with
          | .success v => .ok v
          | .status code =>
              if code = 404 then
                .error (.commandNotFound
                  ("Command execution failed - not found: " ++ command_name))
              else
                .error (.mcpError
                  ("Command execution failed: " ++ toString code))
        (res, cr2)

/-- Failures of one synthesized-tool invocation: argument validation
(raised by Pydantic before the tool body runs) or a client error from
`execute_command`. -/
inductive ToolError where
  | validation (msg : String)
  | client (e : MCPErr)

/-- Invocation of the `StructuredTool` synthesized for `cmd`: the supplied
keyword arguments are validated against the synthesized Pydantic model; on
failure no request is issued; on success the tool body calls
`execute_command(cmd.name, kwargs)`.  Mirrors langchain's `_parse_input`,
which passes through only the keys the caller actually supplied (defaults
are used for validation but not forwarded).  The Python `str(result)`
coercion of the returned value is left implicit — claims concern
validation and request emission. -/
def toolInvoke (env : Nat → FetchOutcome) (resp : ExecOutcome)
    (cr : ClientRun) (cmd : Command) (args : List (String × JValue)) :
    Except ToolError JValue × ClientRun :=
  match validateArgs (makeSchema cmd) args with
  | .error msg => (.error (.validation msg), cr)
  | .ok validated =>
      let funcArgs := validated.filter fun kv => (args.map Prod.fst).contains kv.1
      let r := execute_command env resp cr cmd.name (some funcArgs)
      (r.1.mapError ToolError.client, r.2)

/-- The two catalog-touching operations a caller can perform on a client,
for stating lifetime properties over arbitrary call sequences. -/
inductive ClientOp where
  | listCommands
  | callCommand (name : String) (params : Option (List (String × JValue)))

/-- Run a sequence of client operations, threading the request trace. -/
def runOps (env : Nat → FetchOutcome) (resp : ExecOutcome) :
    ClientRun → List ClientOp → ClientRun
  | cr, [] => cr
  | cr, op :: rest =>
      let cr1 := match op with
        | .listCommands => (commandsProperty env cr).2
        | .callCommand name p => (execute_command env resp cr name p).2
      runOps env resp cr1 rest

/-- Sample command with an enumerated string field, as in §8 of the spec:
`{type:"string", enum:["a","b"]}`, with the field required. -/
def enumCommand : Command :=
  { name := "pick"
    description := "choose a mode"
    properties := [("mode", { type := "string", enum := some [.str "a", .str "b"] })]
    required := ["mode"] }

/-- Sample command with a field absent from `required` and carrying no
declared default. -/
def optionalCommand : Command :=
  { name := "list_items"
    description := "list items"
    properties := [("limit", { type := "integer" })]
    required := [] }

/-- The catalog command of the spec's end-to-end property: one required
string field `query`. -/
def searchCommand : Command :=
  { name := "web_search"
    description := "Search the internet"
    properties := [("query", { type := "string" })]
    required := ["query"] }

/-- A client whose catalog is already populated with `enumCommand`. -/
def enumClient : ClientRun :=
  { client := { _commands := some [enumCommand] } }

/-- A client whose catalog is already populated with `optionalCommand`. -/
def optionalClient : ClientRun :=
  { client := { _commands := some [optionalCommand] } }

/-- A client whose catalog is already populated with `searchCommand`. -/
def searchClient : ClientRun :=
  { client := { _commands := some [searchCommand] } }

end MCP

namespace Workflow

/-- The workflow state (`AgentState` TypedDict in `src/workflow/graph.py`). -/
structure AgentState where
  query : String
  steps : List String
  current_task : String
  result : String

/-- `Workflow.MAX_ITERATIONS`. -/
def MAX_ITERATIONS : Nat := 20

/-- What one routing-oracle invocation (`chain.invoke` in
`_supervisor_node`) can do: return text, raise an
`OutputParserException`, or raise any other exception. -/
inductive OracleResult where
  | answer (text : String)
  | parseError (msg : String)
  | failure (msg : String)

/-- Python's `str.lower()`, modelled character by character (the routing
tokens are ASCII). -/
def pyLower (s : String) : String :=
  ⟨s.data.map Char.toLower⟩

/-- Python's `str.strip()`: drop whitespace from both ends. -/
def pyStrip (s : String) : String :=
  ⟨((s.data.dropWhile Char.isWhitespace).reverse.dropWhile Char.isWhitespace).reverse⟩

/-- Python's substring test `needle in haystack`. -/
def containsSubstr (haystack needle : String) : Bool :=
  haystack.toList.tails.any fun t => needle.toList.isPrefixOf t

/-- The token-matching cascade of `_supervisor_node`, applied to the
already stripped and lowercased oracle answer: first match in the priority
order researcher, developer, tester, finish wins; no match falls back to
researcher. -/
def matchNextAgent (raw_next_agent : String) : String :=
  if containsSubstr raw_next_agent "researcher" then "researcher"
  else if containsSubstr raw_next_agent "developer" then "developer"
  else if containsSubstr raw_next_agent "tester" then "tester"
  else if containsSubstr raw_next_agent "finish" then "finish"
  else "researcher"

/-- `Workflow._supervisor_node`: strip+lowercase the oracle's text and match
it; an `OutputParserException` is caught and becomes a fallback to
researcher with its own trace entry; any other exception is re-raised
(modelled as `Except.error`).  Both non-raising branches append exactly one
trace entry and set `current_task`. -/
def supervisor_node (oracle : AgentState → OracleResult) (state : AgentState) :
    Except String AgentState :=
  match oracle state with
  | .answer raw =>
      let next_agent := matchNextAgent (pyLower (pyStrip raw))
      .ok { state with
              current_task := next_agent,
              steps := state.steps ++ ["Routed to " ++ next_agent] }
  | .parseError _ =>
      .ok { state with
              current_task := "researcher",
              steps := state.steps ++ ["Fallback to researcher due to parsing error"] }
  | .failure msg => .error msg

/-- The trace truncation in `_agent_node`:
`result[:100] + "..." if len(result) > 100 else result`. -/
def truncateResult (result : String) : String :=
  if result.length > 100 then result.take 100 ++ "..." else result

/-- The node produced by `Workflow._agent_node(agent, name)`: runs
`agent.act(query)` (which may raise, modelled as `Except.error`), appends
one trace entry either way, and records the result text — an exception is
converted into the result, never propagated. -/
def agent_node (name : String) (act : String → Except String String)
    (state : AgentState) : AgentState :=
  match act state.query with
  | .ok result =>
      { state with
          result := result,
          steps := state.steps ++ [name ++ " result: " ++ truncateResult result] }
  | .error e =>
      { state with
          result := "Error in " ++ name ++ ": " ++ e,
          steps := state.steps ++ ["Error in " ++ name ++ ": " ++ e] }

/-- The agent node the `route` conditional edge dispatches to:
`path_map.get(task, researcher)` for a non-finish task. -/
def routeDest (task : String) : String :=
  if task = "researcher" ∨ task = "developer" ∨ task = "tester" then task
  else "researcher"

/-- The compiled graph loop: starting at the supervisor node, run it, then
apply `route` — END on "finish", END once the trace length exceeds
`MAX_ITERATIONS`, otherwise dispatch to the routed agent node and come
back to the supervisor.  `acts name` is the `act` behaviour of the agent
registered under `name`.  An exception escaping the supervisor node aborts
the loop (`Except.error`). -/
def workflowLoop (oracle : AgentState → OracleResult)
    (acts : String → String → Except String String) (state : AgentState) :
    Except String AgentState :=
  match h : supervisor_node oracle state with
  | .error e => .error e
  | .ok st1 =>
      if st1.current_task = "finish" then .ok st1
      else if st1.steps.length > MAX_ITERATIONS then .ok st1
      else
        workflowLoop oracle acts
          (agent_node (routeDest st1.current_task) (acts (routeDest st1.current_task)) st1)
termination_by MAX_ITERATIONS + 1 - state.steps.length
decreasing_by
  have hlen1 : st1.steps.length = state.steps.length + 1 := by
    unfold supervisor_node at h
    cases horacle : oracle state <;> rw [horacle] at h <;>
      simp only [Except.ok.injEq] at h <;> first
      | (subst h; simp)
      | exact absurd h (by simp)
  have hlen2 : ∀ n a st, (agent_node n a st).steps.length = st.steps.length + 1 := by
    intro n a st
    unfold agent_node
    cases a st.query <;> simp
  rename_i hfin hmax
  rw [hlen2, hlen1]
  rw [hlen1] at hmax
  unfold MAX_ITERATIONS at hmax ⊢
  omega

/-- The initial state built by `Workflow.run`. -/
def initialState (query : String) : AgentState :=
  { query := query, steps := [], current_task := "", result := "" }

/-- `Workflow.run`: invoke the graph on the initial state and return the
final `result` field; any exception escaping the graph is caught and
encoded as failure text — `run` itself returns a plain string. -/
def run (oracle : AgentState → OracleResult)
    (acts : String → String → Except String String) (query : String) : String :=
  match workflowLoop oracle acts (initialState query) with
  | .ok st => st.result
  | .error e => "Error during workflow execution: " ++ e

end Workflow

namespace MCP

end MCP

namespace MCP

/-- C1, counterexample: for the tool synthesized from a command declaring
`{type:"string", enum:["a","b"]}`, invoking with the out-of-enumeration
value `"c"` is NOT rejected: validation passes (the `enum` keyword is only
schema metadata) and the execute request is issued, reaching the server. -/
theorem enum_out_of_range_value_not_rejected :
    toolInvoke (fun _ => .ok [enumCommand]) (.success (.str "done"))
        enumClient enumCommand [("mode", .str "c")]
      = (.ok (.str "done"),
         { client := { _commands := some [enumCommand]
                       _command_map := some [("pick", enumCommand)] }
           trace := [.postExecute "pick" [("mode", .str "c")]] }) := rfl

/-- C1 (amended): for a synthesized tool with an enumerated string field,
every string value — inside or outside the enumeration — passes argument
validation (the enumeration survives only as `Field` metadata, which
Pydantic does not enforce), and the invocation issues exactly one execute
request carrying the supplied value. -/
theorem enum_field_accepts_any_string :
    ∀ (s : String) (env : Nat → FetchOutcome) (resp : ExecOutcome),
      validateArgs (makeSchema enumCommand) [("mode", .str s)]
          = .ok [("mode", .str s)] ∧
      (toolInvoke env resp enumClient enumCommand [("mode", .str s)]).2.trace
          = [.postExecute "pick" [("mode", .str s)]] :=
  fun _ _ _ => ⟨rfl, rfl⟩

/-- C2, counterexample: for the command declaring one field `limit` absent
from `required` and with no declared default, the synthesized tool invoked
without that field FAILS validation (the absent default becomes the
Ellipsis sentinel, which Pydantic treats as required), and no request is
issued. -/
theorem optional_without_default_is_required :
    validateArgs (makeSchema optionalCommand) []
        = .error "missing required field limit" ∧
    toolInvoke (fun _ => .ok [optionalCommand]) (.success (.str "done"))
        optionalClient optionalCommand []
      = (.error (.validation "missing required field limit"), optionalClient) :=
  ⟨rfl, rfl⟩

/-- C2 (amended): a parameter field absent from the schema's `required` set
gets the explicitly declared default if one is present — invoking the tool
without the field then passes validation, binding the field to that
default; if no default is declared the field receives the Ellipsis
sentinel and becomes required, so invoking without it fails validation. -/
theorem optional_field_default_synthesis :
    ∀ (n desc fname ty : String) (fdesc : Option String)
      (en : Option (List JValue)) (dflt : Option JValue),
      let cmd : Command :=
        { name := n, description := desc
          properties := [(fname, { type := ty, description := fdesc
                                   enum := en, default := dflt })]
          required := [] }
      (∀ d, dflt = some d →
          validateArgs (makeSchema cmd) [] = .ok [(fname, d)]) ∧
      (dflt = none →
          validateArgs (makeSchema cmd) []
            = .error ("missing required field " ++ fname)) := by
  intro n desc fname ty fdesc en dflt cmd
  have hschema : makeSchema cmd =
      [{ name := fname, py_type := json_type_to_py_type ty
         enumMeta := en, default := dflt }] := by
    simp [cmd, makeSchema, Command.has_parameters]
  constructor
  · intro d hd
    subst hd
    simp [hschema, validateArgs, validateField, lookupArg]
  · intro hd
    subst hd
    simp [hschema, validateArgs, validateField, lookupArg]

/-- Witness for the amended C2 theorem at a concrete command: with a
declared default `10` the field validates to `10` when omitted; with no
default, omission is a validation error. -/
theorem optional_field_default_synthesis_witness :
    validateArgs (makeSchema
        { name := "list_items", description := "list items"
          properties := [("limit", { type := "integer"
                                     default := some (.num 10) })]
          required := [] }) []
      = .ok [("limit", .num 10)] :=
  (optional_field_default_synthesis "list_items" "list items" "limit"
      "integer" none none (some (.num 10))).1 (.num 10) rfl

end MCP

namespace MCP

/-- C4: calling `execute_command` on a client whose catalog is populated,
with a name absent from that catalog, fails with `CommandNotFoundError`
and issues no network request (the request trace is unchanged). -/
theorem unknown_command_fails_without_request :
    ∀ (env : Nat → FetchOutcome) (resp : ExecOutcome) (cr : ClientRun)
      (cs : List Command) (name : String)
      (p : Option (List (String × JValue))),
      cr.client._commands = some cs →
      (cr.client._command_map = none ∨
        cr.client._command_map = some (cs.map fun c => (c.name, c))) →
      name ∉ cs.map Command.name →
      ∃ cr1, execute_command env resp cr name p
          = (.error (.commandNotFound ("Command not found: " ++ name)), cr1)
        ∧ cr1.trace = cr.trace := by
  intro env resp cr cs name p hc hmap habs
  have hall : ∀ c ∈ cs, ¬c.name = name := fun c hcmem hn =>
    habs (hn ▸ List.mem_map_of_mem Command.name hcmem)
  cases hmap with
  | inl hnone =>
      refine ⟨{ cr with client := { cr.client with
                  _command_map := some (cs.map fun c => (c.name, c)) } }, ?_, rfl⟩
      simp [execute_command, command_mapProperty, hnone, commandsProperty, hc]
      exact fun x hx hn => absurd hn (hall x hx)
  | inr hsome =>
      refine ⟨cr, ?_, rfl⟩
      simp [execute_command, command_mapProperty, hsome]
      exact fun x hx hn => absurd hn (hall x hx)

/-- Witness for C4: the populated `searchClient` rejects the unknown name
`magic_nonexistent` without any request. -/
theorem unknown_command_fails_without_request_witness :
    ∃ cr1, execute_command (fun _ => .ok [searchCommand]) (.success (.str "r"))
        searchClient "magic_nonexistent" none
      = (.error (.commandNotFound "Command not found: magic_nonexistent"), cr1)
      ∧ cr1.trace = searchClient.trace :=
  unknown_command_fails_without_request _ _ searchClient [searchCommand]
    "magic_nonexistent" none rfl (Or.inl rfl) (by decide)

/-- C10: for a known command, `execute_command` with the `parameters`
argument omitted (Python `None`) issues exactly one execute request whose
payload carries the command name and an empty — but present — parameters
object (`parameters or {}`). -/
theorem execute_parameters_default_empty_object :
    ∀ (env : Nat → FetchOutcome) (resp : ExecOutcome) (cr : ClientRun)
      (cs : List Command) (name : String),
      cr.client._commands = some cs →
      (cr.client._command_map = none ∨
        cr.client._command_map = some (cs.map fun c => (c.name, c))) →
      name ∈ cs.map Command.name →
      (execute_command env resp cr name none).2.trace
        = cr.trace ++ [.postExecute name []] := by
  intro env resp cr cs name hc hmap hmem
  obtain ⟨c, hcmem, hcname⟩ := List.mem_map.mp hmem
  have hfound : ¬∀ x ∈ cs, ¬x.name = name := fun hall => hall c hcmem hcname
  cases hmap with
  | inl hnone =>
      simp [execute_command, command_mapProperty, hnone, commandsProperty, hc, hfound]
  | inr hsome =>
      simp [execute_command, command_mapProperty, hsome, hfound]

/-- Witness for C10: executing `web_search` with parameters omitted posts
the payload `{"command": "web_search", "parameters": {}}`. -/
theorem execute_parameters_default_empty_object_witness :
    (execute_command (fun _ => .ok [searchCommand]) (.success (.str "r"))
        searchClient "web_search" none).2.trace
      = [Request.postExecute "web_search" []] :=
  execute_parameters_default_empty_object _ _ searchClient [searchCommand]
    "web_search" rfl (Or.inl rfl) (by decide)

end MCP

namespace MCP

/-- If the first attempt's GET succeeds, the retry loop stops with one
request and no backoff wait. -/
theorem load_commands_first_ok (outcomes : Nat → FetchOutcome)
    (cmds : List Command) (h : outcomes 1 = .ok cmds) :
    load_commands outcomes = (.ok cmds, 1, []) := by
  simp [load_commands, stop_after_attempt, load_commands_aux, h, loadOnce]

/-- The `commands` property returns the cache untouched when populated. -/
theorem commandsProperty_cached (env : Nat → FetchOutcome) (cr : ClientRun)
    (cmds : List Command) (h : cr.client._commands = some cmds) :
    commandsProperty env cr = (.ok cmds, cr) := by
  simp [commandsProperty, h]

/-- On a client with a populated catalog, the `command_map` property
issues no request and leaves the catalog cache populated. -/
theorem command_mapProperty_cached (env : Nat → FetchOutcome) (cr : ClientRun)
    (cs : List Command) (h : cr.client._commands = some cs) :
    ∃ m, (command_mapProperty env cr).1 = .ok m ∧
      (command_mapProperty env cr).2.trace = cr.trace ∧
      (command_mapProperty env cr).2.client._commands = some cs := by
  cases hm : cr.client._command_map with
  | some m =>
      refine ⟨m, ?_, ?_, ?_⟩ <;> simp [command_mapProperty, hm, h]
  | none =>
      refine ⟨cs.map fun c => (c.name, c), ?_, ?_, ?_⟩ <;>
        simp [command_mapProperty, hm, commandsProperty_cached env cr cs h, h]

/-- On a client with a populated catalog, `execute_command` issues no GET
and leaves the catalog cache populated. -/
theorem execute_command_cached (env : Nat → FetchOutcome) (resp : ExecOutcome)
    (cr : ClientRun) (name : String) (p : Option (List (String × JValue)))
    (cs : List Command) (h : cr.client._commands = some cs) :
    (execute_command env resp cr name p).2.gets = cr.gets ∧
    (execute_command env resp cr name p).2.client._commands = some cs := by
  obtain ⟨m, h1, h2, h3⟩ := command_mapProperty_cached env cr cs h
  cases hq : command_mapProperty env cr with
  | mk res cr1 =>
      rw [hq] at h1 h2 h3
      simp only at h1 h2 h3
      subst h1
      simp only [execute_command, hq]
      split
      · exact ⟨by simp [ClientRun.gets, h2], h3⟩
      · constructor
        · simp [ClientRun.gets, List.countP_append, List.countP_cons, h2]
        · exact h3

/-- Once the catalog cache is populated, any further sequence of
`listCommands`/`callCommand` operations issues no catalog GET at all and
leaves the cache populated. -/
theorem runOps_no_refetch (ops : List ClientOp) :
    ∀ (env : Nat → FetchOutcome) (resp : ExecOutcome) (cr : ClientRun)
      (cs : List Command), cr.client._commands = some cs →
      (runOps env resp cr ops).gets = cr.gets ∧
      (runOps env resp cr ops).client._commands = some cs := by
  induction ops with
  | nil => intro env resp cr cs h; exact ⟨rfl, h⟩
  | cons op rest ih =>
      intro env resp cr cs h
      cases op with
      | listCommands =>
          have hcp := commandsProperty_cached env cr cs h
          simp only [runOps, hcp]
          exact ih env resp cr cs h
      | callCommand name p =>
          obtain ⟨hg, hcmds⟩ := execute_command_cached env resp cr name p cs h
          simp only [runOps]
          obtain ⟨hg2, hc2⟩ := ih env resp ((execute_command env resp cr name p).2) cs hcmds
          exact ⟨hg2.trans hg, hc2⟩

end MCP

namespace MCP

/-- On a fresh (unpopulated) client whose server answers every GET with the
catalog `cs`, the `commands` property fetches exactly once. -/
theorem commandsProperty_fresh (env : Nat → FetchOutcome) (cr : ClientRun)
    (cs : List Command) (henv : ∀ n, env n = .ok cs)
    (hc : cr.client._commands = none) :
    (commandsProperty env cr).2
      = { client := { _commands := some cs, _command_map := none }
          trace := cr.trace ++ [.getCommands] } := by
  have hload : load_commands (fun k => env (cr.gets + k)) = (.ok cs, 1, []) :=
    load_commands_first_ok _ cs (henv _)
  simp [commandsProperty, hc, hload, List.replicate]

/-- Appending one execute POST never changes the GET count. -/
theorem gets_append_post (cr : ClientRun) (name : String)
    (ps : List (String × JValue)) :
    ({ cr with trace := cr.trace ++ [.postExecute name ps] } : ClientRun).gets
      = cr.gets := by
  simp [ClientRun.gets, List.countP_append, List.countP_cons]

/-- One `execute_command` on a client with an unpopulated catalog, against
an always-successful server: either the cached command map answered (no
GET, catalog still unpopulated) or the catalog was fetched exactly once
and is now populated. -/
theorem execute_command_fresh (env : Nat → FetchOutcome) (resp : ExecOutcome)
    (cr : ClientRun) (name : String) (p : Option (List (String × JValue)))
    (cs : List Command) (henv : ∀ n, env n = .ok cs)
    (hc : cr.client._commands = none) :
    ((execute_command env resp cr name p).2.client._commands = none ∧
       (execute_command env resp cr name p).2.gets = cr.gets) ∨
    ((execute_command env resp cr name p).2.client._commands = some cs ∧
       (execute_command env resp cr name p).2.gets = cr.gets + 1) := by
  cases hm : cr.client._command_map with
  | some m =>
      left
      simp only [execute_command, command_mapProperty, hm]
      split
      · exact ⟨hc, rfl⟩
      · exact ⟨hc, gets_append_post cr name _⟩
  | none =>
      right
      have h1 : (commandsProperty env cr).1 = .ok cs := by
        have hload : load_commands (fun k => env (cr.gets + k)) = (.ok cs, 1, []) :=
          load_commands_first_ok _ cs (henv _)
        simp [commandsProperty, hc, hload]
      have hfresh := commandsProperty_fresh env cr cs henv hc
      cases hcp : commandsProperty env cr with
      | mk res cr1 =>
          rw [hcp] at h1 hfresh
          simp only at h1 hfresh
          subst h1
          subst hfresh
          simp only [execute_command, command_mapProperty, hm, hcp]
          split
          · constructor
            · simp
            · simp [ClientRun.gets, List.countP_append, List.countP_cons]
          · constructor
            · simp
            · simp [ClientRun.gets, List.countP_append, List.countP_cons]

end MCP

namespace MCP

/-- Auxiliary invariant for the cache-once property: starting from a state
that is either untouched (no catalog, no GET yet) or already populated
with at most one GET, any operation sequence ends with at most one GET. -/
theorem runOps_gets_le_one (ops : List ClientOp) :
    ∀ (env : Nat → FetchOutcome) (resp : ExecOutcome) (cr : ClientRun)
      (cs : List Command),
      (∀ n, env n = .ok cs) →
      (cr.client._commands = none ∧ cr.gets = 0) ∨
        (∃ cs2, cr.client._commands = some cs2 ∧ cr.gets ≤ 1) →
      (runOps env resp cr ops).gets ≤ 1 := by
  induction ops with
  | nil =>
      intro env resp cr cs henv hinv
      cases hinv with
      | inl h => simp [runOps, h.2]
      | inr h => obtain ⟨cs2, _, hle⟩ := h; simpa [runOps] using hle
  | cons op rest ih =>
      intro env resp cr cs henv hinv
      cases hinv with
      | inr h =>
          obtain ⟨cs2, hcmds, hle⟩ := h
          obtain ⟨hg, _⟩ := runOps_no_refetch (op :: rest) env resp cr cs2 hcmds
          rw [hg]; exact hle
      | inl h =>
          obtain ⟨hcnone, hzero⟩ := h
          cases op with
          | listCommands =>
              have hfresh := commandsProperty_fresh env cr cs henv hcnone
              simp only [runOps, hfresh]
              have hcmds1 : ({ client := { _commands := some cs, _command_map := none }
                               trace := cr.trace ++ [Request.getCommands] } : ClientRun).client._commands
                  = some cs := rfl
              obtain ⟨hg, _⟩ := runOps_no_refetch rest env resp _ cs hcmds1
              rw [hg]
              have hone : ({ client := { _commands := some cs, _command_map := none }
                             trace := cr.trace ++ [Request.getCommands] } : ClientRun).gets
                  = cr.gets + 1 := by
                simp [ClientRun.gets, List.countP_append, List.countP_cons]
              omega
          | callCommand name p =>
              simp only [runOps]
              cases execute_command_fresh env resp cr name p cs henv hcnone with
              | inl hstep =>
                  obtain ⟨hcmds1, hg1⟩ := hstep
                  exact ih env resp _ cs henv (Or.inl ⟨hcmds1, by rw [hg1, hzero]⟩)
              | inr hstep =>
                  obtain ⟨hcmds1, hg1⟩ := hstep
                  exact ih env resp _ cs henv
                    (Or.inr ⟨cs, hcmds1, by rw [hg1, hzero]⟩)

/-- C5: the cache-once property.  First conjunct: on a fresh client whose
catalog fetches succeed, any number of `listCommands`/`callCommand`
invocations issues at most one catalog GET over the client's lifetime.
Second conjunct: once a successful fetch has populated the cache, a
further operation sequence issues zero additional catalog GETs — no call
ever re-fetches. -/
theorem catalog_fetched_at_most_once :
    (∀ (cs : List Command) (env : Nat → FetchOutcome) (resp : ExecOutcome)
       (ops : List ClientOp),
       (∀ n, env n = .ok cs) →
       (runOps env resp {} ops).gets ≤ 1) ∧
    (∀ (env : Nat → FetchOutcome) (resp : ExecOutcome) (cr : ClientRun)
       (cs : List Command) (ops : List ClientOp),
       cr.client._commands = some cs →
       (runOps env resp cr ops).gets = cr.gets) := by
  constructor
  · intro cs env resp ops henv
    exact runOps_gets_le_one ops env resp {} cs henv (Or.inl ⟨rfl, rfl⟩)
  · intro env resp cr cs ops h
    exact (runOps_no_refetch ops env resp cr cs h).1

/-- Witness for C5: two catalog listings followed by two command calls on
a fresh client fetch the catalog at most once. -/
theorem catalog_fetched_at_most_once_witness :
    (runOps (fun _ => .ok [searchCommand]) (.success (.str "mocked_result")) {}
        [.listCommands, .listCommands,
         .callCommand "web_search" (some [("query", .str "python 3.13")]),
         .callCommand "web_search" none]).gets ≤ 1 :=
  catalog_fetched_at_most_once.1 [searchCommand] _ _ _ (fun _ => rfl)

end MCP

namespace MCP

/-- The retry loop never makes more requests than one more than its
remaining-retry budget. -/
theorem load_commands_aux_count_le (outcomes : Nat → FetchOutcome) :
    ∀ (fuel attempt : Nat),
      (load_commands_aux outcomes attempt fuel).2.1 ≤ fuel + 1 := by
  intro fuel
  induction fuel with
  | zero => intro attempt; simp [load_commands_aux]
  | succ n ih =>
      intro attempt
      simp only [load_commands_aux]
      cases h : loadOnce (outcomes attempt) with
      | ok cmds => simp
      | error e =>
          by_cases hr : retryable e = true
          · simp only [hr, if_true]
            have := ih (attempt + 1)
            omega
          · simp [hr]

/-- `commandsProperty` never issues an execute POST. -/
theorem commandsProperty_posts (env : Nat → FetchOutcome) (cr : ClientRun) :
    (commandsProperty env cr).2.posts = cr.posts := by
  cases hc : cr.client._commands with
  | some cmds => simp [commandsProperty, hc]
  | none =>
      simp only [commandsProperty, hc]
      cases hl : (load_commands fun k => env (cr.gets + k)).1 with
      | ok cmds =>
          simp only [hl, ClientRun.posts, List.countP_append]
          have : ∀ n, (List.replicate n Request.getCommands).countP
              (fun r => match r with
                | .postExecute _ _ => true
                | _ => false) = 0 := by
            intro n
            induction n with
            | zero => rfl
            | succ k ihk => simp [List.replicate, List.countP_cons, ihk]
          simp [this]
      | error e =>
          simp only [hl, ClientRun.posts, List.countP_append]
          have : ∀ n, (List.replicate n Request.getCommands).countP
              (fun r => match r with
                | .postExecute _ _ => true
                | _ => false) = 0 := by
            intro n
            induction n with
            | zero => rfl
            | succ k ihk => simp [List.replicate, List.countP_cons, ihk]
          simp [this]

/-- `command_mapProperty` never issues an execute POST. -/
theorem command_mapProperty_posts (env : Nat → FetchOutcome) (cr : ClientRun) :
    (command_mapProperty env cr).2.posts = cr.posts := by
  cases hm : cr.client._command_map with
  | some m => simp [command_mapProperty, hm]
  | none =>
      have hp := commandsProperty_posts env cr
      simp only [command_mapProperty, hm]
      cases hcp : commandsProperty env cr with
      | mk res cr1 =>
          rw [hcp] at hp
          cases res with
          | ok cmds => simpa [ClientRun.posts] using hp
          | error e => simpa using hp

/-- C6: the retry policy.  (1) The catalog fetch makes at most
`stop_after_attempt = 3` attempts.  (2) A first-attempt failure that is
not a connection or read-timeout failure (HTTP error status, malformed
schema — both surfaced as `MCPError`) is not retried: one request, the
error surfaced unchanged.  (3) After two retryable failures the third
attempt is final and its outcome — error or success — is returned
unchanged (`reraise=True`), after backoff waits of exactly 2 then 2 time
units (the raw exponentials 1 and 2 clamp up to the minimum of 2).
(4) The exponential backoff starts at 2 and is capped at 10.
(5) The execute call is never retried: one `execute_command` issues at
most one POST. -/
theorem retry_policy_catalog_fetch_only :
    (∀ outcomes : Nat → FetchOutcome,
        (load_commands outcomes).2.1 ≤ stop_after_attempt) ∧
    (∀ (outcomes : Nat → FetchOutcome) (e : MCPErr),
        loadOnce (outcomes 1) = .error e → retryable e = false →
        load_commands outcomes = (.error e, 1, [])) ∧
    (∀ (outcomes : Nat → FetchOutcome) (e1 e2 : MCPErr),
        loadOnce (outcomes 1) = .error e1 → retryable e1 = true →
        loadOnce (outcomes 2) = .error e2 → retryable e2 = true →
        load_commands outcomes
          = (loadOnce (outcomes 3), 3,
             [wait_exponential 1 2 10 1, wait_exponential 1 2 10 2])) ∧
    (wait_exponential 1 2 10 1 = 2 ∧ wait_exponential 1 2 10 2 = 2 ∧
      (∀ n, 2 ≤ wait_exponential 1 2 10 n ∧ wait_exponential 1 2 10 n ≤ 10)) ∧
    (∀ (env : Nat → FetchOutcome) (resp : ExecOutcome) (cr : ClientRun)
       (name : String) (p : Option (List (String × JValue))),
       (execute_command env resp cr name p).2.posts ≤ cr.posts + 1) := by
  refine ⟨?_, ?_, ?_, ⟨rfl, rfl, ?_⟩, ?_⟩
  · intro outcomes
    exact load_commands_aux_count_le outcomes (stop_after_attempt - 1) 1
  · intro outcomes e h1 hr
    simp [load_commands, stop_after_attempt, load_commands_aux, h1, hr]
  · intro outcomes e1 e2 h1 hr1 h2 hr2
    simp [load_commands, stop_after_attempt, load_commands_aux, h1, hr1, h2, hr2]
  · intro n
    constructor
    · simp only [wait_exponential]
      exact Nat.le_max_left 2 _
    · simp only [wait_exponential]
      exact max_le (by omega) (Nat.min_le_right _ _)
  · intro env resp cr name p
    have hmp := command_mapProperty_posts env cr
    cases hcp : command_mapProperty env cr with
    | mk res cr1 =>
        rw [hcp] at hmp
        simp only at hmp
        cases res with
        | error e => simp [execute_command, hcp, hmp]
        | ok m =>
            simp only [execute_command, hcp]
            split
            · rw [hmp]; omega
            · simp [ClientRun.posts, List.countP_append, List.countP_cons]
              simp [ClientRun.posts] at hmp
              omega

/-- Witness for C6: a first-attempt HTTP 500 is surfaced as `MCPError`
after exactly one request, with no retry. -/
theorem retry_policy_catalog_fetch_only_witness :
    load_commands (fun _ => .httpStatus 500)
      = (.error (.mcpError "Failed to fetch commands: 500"), 1, []) :=
  retry_policy_catalog_fetch_only.2.1 (fun _ => .httpStatus 500)
    (.mcpError "Failed to fetch commands: 500") rfl rfl

end MCP

namespace Workflow

/-- C7: the supervisor matches the routing oracle's raw text answer —
stripped and lowercased, so matching is case-insensitive and substrings
with surrounding text count — against "researcher", "developer",
"tester", "finish" in that priority order, first match winning; when none
match, the decision defaults to researcher; in every case exactly one
trace entry recording the decision is appended. -/
theorem supervisor_token_matching :
    ∀ (oracle : AgentState → OracleResult) (st : AgentState) (raw : String),
      oracle st = .answer raw →
      ∃ st2, supervisor_node oracle st = .ok st2 ∧
        st2.query = st.query ∧ st2.result = st.result ∧
        st2.steps = st.steps ++ ["Routed to " ++ st2.current_task] ∧
        (containsSubstr (pyLower (pyStrip raw)) "researcher" = true →
          st2.current_task = "researcher") ∧
        (containsSubstr (pyLower (pyStrip raw)) "researcher" = false →
          containsSubstr (pyLower (pyStrip raw)) "developer" = true →
          st2.current_task = "developer") ∧
        (containsSubstr (pyLower (pyStrip raw)) "researcher" = false →
          containsSubstr (pyLower (pyStrip raw)) "developer" = false →
          containsSubstr (pyLower (pyStrip raw)) "tester" = true →
          st2.current_task = "tester") ∧
        (containsSubstr (pyLower (pyStrip raw)) "researcher" = false →
          containsSubstr (pyLower (pyStrip raw)) "developer" = false →
          containsSubstr (pyLower (pyStrip raw)) "tester" = false →
          containsSubstr (pyLower (pyStrip raw)) "finish" = true →
          st2.current_task = "finish") ∧
        (containsSubstr (pyLower (pyStrip raw)) "researcher" = false →
          containsSubstr (pyLower (pyStrip raw)) "developer" = false →
          containsSubstr (pyLower (pyStrip raw)) "tester" = false →
          containsSubstr (pyLower (pyStrip raw)) "finish" = false →
          st2.current_task = "researcher") := by
  intro oracle st raw h
  refine ⟨{ st with
      current_task := matchNextAgent (pyLower (pyStrip raw))
      steps := st.steps ++ ["Routed to " ++ matchNextAgent (pyLower (pyStrip raw))] },
    ?_, rfl, rfl, rfl, ?_, ?_, ?_, ?_, ?_⟩
  · simp [supervisor_node, h]
  · intro h1; simp [matchNextAgent, h1]
  · intro h1 h2; simp [matchNextAgent, h1, h2]
  · intro h1 h2 h3; simp [matchNextAgent, h1, h2, h3]
  · intro h1 h2 h3 h4; simp [matchNextAgent, h1, h2, h3, h4]
  · intro h1 h2 h3 h4; simp [matchNextAgent, h1, h2, h3, h4]

/-- Witness for C7: the answer " The DEVELOPER should act " routes to the
developer agent (case-insensitive, with surrounding text), appending one
trace entry. -/
theorem supervisor_token_matching_witness :
    ∃ st2, supervisor_node (fun _ => .answer " The DEVELOPER should act ")
        (initialState "q") = .ok st2 ∧
      st2.current_task = "developer" ∧ st2.steps = ["Routed to developer"] := by
  obtain ⟨st2, hok, _, _, hsteps, _, hdev, _, _, _⟩ :=
    supervisor_token_matching (fun _ => .answer " The DEVELOPER should act ")
      (initialState "q") " The DEVELOPER should act " rfl
  have htask : st2.current_task = "developer" := hdev rfl rfl
  refine ⟨st2, hok, htask, ?_⟩
  rw [hsteps, htask]
  rfl

end Workflow

namespace Workflow

/-- Unfolding of the graph loop when the supervisor node returns a state. -/
theorem workflowLoop_ok_unfold (oracle : AgentState → OracleResult)
    (acts : String → String → Except String String) (st st1 : AgentState)
    (h : supervisor_node oracle st = .ok st1) :
    workflowLoop oracle acts st =
      if st1.current_task = "finish" then .ok st1
      else if st1.steps.length > MAX_ITERATIONS then .ok st1
      else workflowLoop oracle acts
        (agent_node (routeDest st1.current_task)
          (acts (routeDest st1.current_task)) st1) := by
  rw [workflowLoop]
  split
  · rename_i e heq; rw [heq] at h; cases h
  · rename_i st1h heq
    rw [heq] at h
    cases h
    rfl

/-- Unfolding of the graph loop when the supervisor node raises. -/
theorem workflowLoop_error_unfold (oracle : AgentState → OracleResult)
    (acts : String → String → Except String String) (st : AgentState)
    (e : String) (h : supervisor_node oracle st = .error e) :
    workflowLoop oracle acts st = .error e := by
  rw [workflowLoop]
  split
  · rename_i e2 heq; rw [heq] at h; cases h; rfl
  · rename_i st1h heq; rw [heq] at h; cases h

/-- The supervisor node under an oracle that always answers
"researcher": it routes to the researcher and appends one step. -/
theorem supervisor_node_always_researcher (oracle : AgentState → OracleResult)
    (st : AgentState) (h : oracle st = .answer "researcher") :
    supervisor_node oracle st =
      .ok { st with current_task := "researcher"
                    steps := st.steps ++ ["Routed to researcher"] } := by
  have hmatch : matchNextAgent (pyLower (pyStrip "researcher")) = "researcher" := rfl
  simp [supervisor_node, h, hmatch]

/-- Every agent node appends exactly one step. -/
theorem agent_node_steps_length (name : String)
    (act : String → Except String String) (st : AgentState) :
    (agent_node name act st).steps.length = st.steps.length + 1 := by
  unfold agent_node
  cases act st.query <;> simp

/-- Cap-cutoff induction: under an always-researcher oracle, a loop
started at an even step count `MAX_ITERATIONS - 2m` finishes with exactly
`MAX_ITERATIONS + 1` steps. -/
theorem workflowLoop_researcher_cap (oracle : AgentState → OracleResult)
    (acts : String → String → Except String String)
    (horacle : ∀ s, oracle s = .answer "researcher") :
    ∀ (m : Nat) (st : AgentState),
      st.steps.length + 2 * m = MAX_ITERATIONS →
      ∃ stF, workflowLoop oracle acts st = .ok stF ∧
        stF.steps.length = MAX_ITERATIONS + 1 := by
  intro m
  induction m with
  | zero =>
      intro st hlen
      have hsup := supervisor_node_always_researcher oracle st (horacle st)
      rw [workflowLoop_ok_unfold oracle acts st _ hsup]
      have hfin : ¬(("researcher" : String) = "finish") := by decide
      have hlen1 : (st.steps ++ ["Routed to researcher"]).length
          = MAX_ITERATIONS + 1 := by
        simp [List.length_append]
        omega
      refine ⟨{ st with current_task := "researcher"
                        steps := st.steps ++ ["Routed to researcher"] }, ?_, hlen1⟩
      simp only [hfin, if_false]
      rw [if_pos]
      simp [hlen1, MAX_ITERATIONS]
  | succ n ih =>
      intro st hlen
      have hsup := supervisor_node_always_researcher oracle st (horacle st)
      rw [workflowLoop_ok_unfold oracle acts st _ hsup]
      have hfin : ¬(("researcher" : String) = "finish") := by decide
      have hlen1 : (st.steps ++ ["Routed to researcher"]).length
          = st.steps.length + 1 := by simp
      have hnotover : ¬((st.steps ++ ["Routed to researcher"]).length > MAX_ITERATIONS) := by
        rw [hlen1]; omega
      simp only [hfin, if_false]
      rw [if_neg hnotover]
      have hnext := agent_node_steps_length (routeDest "researcher")
        (acts (routeDest "researcher"))
        { st with current_task := "researcher"
                  steps := st.steps ++ ["Routed to researcher"] }
      apply ih
      rw [hnext]
      simp only [hlen1]
      omega

/-- C8: with a routing oracle that always answers "researcher" (never
"finish"), every run terminates through the bounded-iteration cutoff with
exactly `MAX_ITERATIONS + 1 = 21` trace steps — never more — and `run`
returns the final recorded result text rather than raising. -/
theorem run_always_researcher_hits_cap :
    ∀ (oracle : AgentState → OracleResult)
      (acts : String → String → Except String String) (query : String),
      (∀ s, oracle s = .answer "researcher") →
      ∃ stF, workflowLoop oracle acts (initialState query) = .ok stF ∧
        stF.steps.length = MAX_ITERATIONS + 1 ∧
        MAX_ITERATIONS + 1 = 21 ∧
        run oracle acts query = stF.result := by
  intro oracle acts query horacle
  obtain ⟨stF, hloop, hlen⟩ :=
    workflowLoop_researcher_cap oracle acts horacle 10 (initialState query)
      (by simp [initialState, MAX_ITERATIONS])
  exact ⟨stF, hloop, hlen, rfl, by simp [run, hloop]⟩

/-- Witness for C8: a concrete always-researcher run stops at 21 steps. -/
theorem run_always_researcher_hits_cap_witness :
    ∃ stF, workflowLoop (fun _ => .answer "researcher")
        (fun _ q => .ok ("done with " ++ q)) (initialState "build a parser")
        = .ok stF ∧
      stF.steps.length = MAX_ITERATIONS + 1 ∧
      MAX_ITERATIONS + 1 = 21 ∧
      run (fun _ => .answer "researcher") (fun _ q => .ok ("done with " ++ q))
        "build a parser" = stF.result :=
  run_always_researcher_hits_cap (fun _ => .answer "researcher")
    (fun _ q => .ok ("done with " ++ q)) "build a parser" (fun _ => rfl)

end Workflow

namespace Workflow

/-- C9: failure paths are absorbed into text, never raised.  (1) An
exception raised by an agent while its node runs is caught at that node
and converted into exactly one appended trace entry and into the run's
result text — the node returns a normal state, so the loop continues.
(2)/(3) `run` never raises: whatever the graph does, it returns a plain
string — the final state's result on normal termination, and the
`"Error during workflow execution: "`-prefixed text when an exception
escapes the graph. -/
theorem failures_encoded_as_text :
    (∀ (name : String) (act : String → Except String String)
       (st : AgentState) (e : String),
       act st.query = .error e →
       agent_node name act st =
         { st with result := "Error in " ++ name ++ ": " ++ e
                   steps := st.steps ++ ["Error in " ++ name ++ ": " ++ e] }) ∧
    (∀ (oracle : AgentState → OracleResult)
       (acts : String → String → Except String String) (query : String)
       (stF : AgentState),
       workflowLoop oracle acts (initialState query) = .ok stF →
       run oracle acts query = stF.result) ∧
    (∀ (oracle : AgentState → OracleResult)
       (acts : String → String → Except String String) (query : String)
       (e : String),
       workflowLoop oracle acts (initialState query) = .error e →
       run oracle acts query = "Error during workflow execution: " ++ e) := by
  refine ⟨?_, ?_, ?_⟩
  · intro name act st e h
    simp [agent_node, h]
  · intro oracle acts query stF h
    simp [run, h]
  · intro oracle acts query e h
    simp [run, h]

/-- Witness for C9: a concrete agent failure is converted into the trace
entry and result text; a concrete supervisor failure surfaces through
`run` as failure text, not an exception. -/
theorem failures_encoded_as_text_witness :
    agent_node "researcher" (fun _ => .error "boom") (initialState "q")
      = { query := "q", steps := ["Error in researcher: boom"]
          current_task := "", result := "Error in researcher: boom" } ∧
    run (fun _ => .failure "llm down") (fun _ _ => .ok "unused") "q"
      = "Error during workflow execution: llm down" := by
  constructor
  · have h := failures_encoded_as_text.1 "researcher" (fun _ => .error "boom")
      (initialState "q") "boom" rfl
    simpa [initialState] using h
  · have hloop : workflowLoop (fun _ => .failure "llm down")
        (fun _ _ => .ok "unused") (initialState "q") = .error "llm down" :=
      workflowLoop_error_unfold _ _ _ _ rfl
    exact failures_encoded_as_text.2.2 _ _ "q" "llm down" hloop

end Workflow
